import Mathlib

/-!
Shallow embedding of the retirement-planning engine (`RetirementPlanner` in
`src/app.py`): the monthly simulator `calculate_viability`, the binary-search
capital solver `solve_required_capital`, and the withdrawal-rate classifier
`calculate_swr_health`.  Real numbers are modelled as `ℚ`; the Python
`ZeroDivisionError` raised by `x / (1 - tax_rate)` when `tax_rate = 1` is
modelled by an `Option` result (`none` = the exception propagates), guarded at
exactly the program points where the division executes.
-/

/-- The input record (`inputs` dict of `app.py`): starting capital, monthly
fixed income, monthly dividend income, monthly target spend, flat tax rate,
horizon in years, and the three annual rates. -/
structure ScenarioInput where
  lump_sum : ℚ
  other_income : ℚ
  current_dividends : ℚ
  target_payout : ℚ
  tax_rate : ℚ
  horizon_years : ℕ
  inflation_rate : ℚ
  gdp_growth : ℚ
  expected_return : ℚ

/-- The planner object: `__init__` stores the inputs, copies the starting
capital into the mutable `self.lump_sum`, and precomputes
`horizon_months = horizon_years * 12`. -/
structure RetirementPlanner where
  inputs : ScenarioInput
  lump_sum : ℚ
  horizon_months : ℕ

/-- `RetirementPlanner(inputs)` constructor. -/
def mkPlanner (i : ScenarioInput) : RetirementPlanner :=
  { inputs := i, lump_sum := i.lump_sum, horizon_months := i.horizon_years * 12 }

/-- The `insolvency_msg` string: either `"Solvent"` or `"DEPLETED (Year y)"`. -/
inductive SolvencyMsg where
  | solvent
  | depleted (year : ℕ)

/-- One appended row of the trajectory `data` list:
`{"Year": ..., "Expenses (Net)": ..., "Withdrawal (Gross)": ..., "Balance": ...}`. -/
structure TrajectoryPoint where
  year : ℕ
  expenses : ℚ
  withdrawal : ℚ
  balance : ℚ

/-- The loop state of `calculate_viability`: running balance, the escalating
`current_div` and `current_expense`, the solvency flag and message, the
month's `gross_withdrawal` (a loop-local in the source, kept here so that the
per-month withdrawal can be spoken about), and the accumulated `data` rows. -/
structure SimState where
  bal : ℚ
  current_div : ℚ
  current_expense : ℚ
  solv : Bool
  msg : SolvencyMsg
  lastW : ℚ
  data : List TrajectoryPoint

/-- State before the first month: `balance = self.lump_sum`,
`current_div = inputs['current_dividends']`, `current_expense =
inputs['target_payout']`, `is_solvent = True`, `insolvency_msg = "Solvent"`. -/
def initState (p : RetirementPlanner) : SimState :=
  { bal := p.lump_sum, current_div := p.inputs.current_dividends,
    current_expense := p.inputs.target_payout, solv := true,
    msg := .solvent, lastW := 0, data := [] }

/-- `year = (m - 1) // 12 + 1`. -/
def yearOf (m : ℕ) : ℕ := (m - 1) / 12 + 1

/-- Crash logic: `crash_rate / 12` while `year <= crash_years`, otherwise
`expected_return / 12`. -/
def monthlyRate (p : RetirementPlanner) (crash_rate : ℚ) (crash_years : ℕ) (m : ℕ) : ℚ :=
  if yearOf m ≤ crash_years then crash_rate / 12 else p.inputs.expected_return / 12

/-- Dividend escalation at a year boundary: `if m > 1 and (m-1) % 12 == 0`. -/
def divAfter (p : RetirementPlanner) (m : ℕ) (d : ℚ) : ℚ :=
  if 1 < m ∧ (m - 1) % 12 = 0 then d * (1 + p.inputs.gdp_growth) else d

/-- Expense escalation at a year boundary: `if m > 1 and (m-1) % 12 == 0`. -/
def expAfter (p : RetirementPlanner) (m : ℕ) (e : ℚ) : ℚ :=
  if 1 < m ∧ (m - 1) % 12 = 0 then e * (1 + p.inputs.inflation_rate) else e

/-- `gross_withdrawal = max(0, current_expense - (other_income + current_div))
/ (1 - tax_rate)`, taking the already-escalated expense and dividend. -/
def grossWithdrawal (p : RetirementPlanner) (e d : ℚ) : ℚ :=
  max 0 (e - (p.inputs.other_income + d)) / (1 - p.inputs.tax_rate)

/-- The post-withdrawal balance of month `m`, before the insolvency clamp:
growth `balance += balance * monthly_rate` followed by subtracting the gross
withdrawal. -/
def balAfter (p : RetirementPlanner) (cr : ℚ) (cy : ℕ) (m : ℕ) (st : SimState) : ℚ :=
  st.bal + st.bal * monthlyRate p cr cy m -
    grossWithdrawal p (expAfter p m st.current_expense) (divAfter p m st.current_div)

/-- One iteration of the `for m in range(1, horizon_months + 1)` loop body of
`calculate_viability`, with the pure arithmetic (the `1 - tax_rate` division
is `ℚ` division here; the `Option` wrapper below accounts for the Python
exception when `tax_rate = 1`). -/
def stepP (p : RetirementPlanner) (cr : ℚ) (cy : ℕ) (m : ℕ) (st : SimState) : SimState :=
  let d := divAfter p m st.current_div
  let e := expAfter p m st.current_expense
  let g := grossWithdrawal p e d
  let b := st.bal + st.bal * monthlyRate p cr cy m - g
  if b ≤ 0 ∧ st.solv = true then
    { bal := 0, current_div := d, current_expense := e, solv := false,
      msg := .depleted (yearOf m), lastW := g,
      data := if m % 12 = 0 ∨ m = p.horizon_months
        then st.data ++ [⟨yearOf m, e, g, 0⟩] else st.data }
  else
    { bal := b, current_div := d, current_expense := e, solv := st.solv,
      msg := st.msg, lastW := g,
      data := if m % 12 = 0 ∨ m = p.horizon_months
        then st.data ++ [⟨yearOf m, e, g, b⟩] else st.data }

/-- The month indices `range(1, n + 1)` as a list. -/
def monthsList (n : ℕ) : List ℕ := List.range' 1 n

/-- The simulator state after `n` months (pure arithmetic model). -/
def runP (p : RetirementPlanner) (cr : ℚ) (cy : ℕ) (n : ℕ) : SimState :=
  (monthsList n).foldl (fun st m => stepP p cr cy m st) (initState p)

/-- One loop iteration with the Python exception modelled: the division
`net_shortfall / (1 - tax_rate)` raises `ZeroDivisionError` exactly when
`1 - tax_rate = 0`, every time the loop body executes. -/
def stepO (p : RetirementPlanner) (cr : ℚ) (cy : ℕ) (m : ℕ) (st : SimState) :
    Option SimState :=
  if (1 : ℚ) - p.inputs.tax_rate = 0 then none else some (stepP p cr cy m st)

/-- The simulator after `n` months, propagating the division-by-zero
exception. -/
def runO (p : RetirementPlanner) (cr : ℚ) (cy : ℕ) (n : ℕ) : Option SimState :=
  (monthsList n).foldlM (fun st m => stepO p cr cy m st) (initState p)

/-- `calculate_viability(crash_rate, crash_years)`: returns the trajectory
rows, the solvency flag and the status message (`none` = the Python call
raises). -/
def calculate_viability (p : RetirementPlanner) (cr : ℚ) (cy : ℕ) :
    Option (List TrajectoryPoint × Bool × SolvencyMsg) :=
  (runO p cr cy p.horizon_months).map fun st => (st.data, st.solv, st.msg)

/-- The 30-iteration binary-search loop of `solve_required_capital`, threading
the planner whose `lump_sum` field the Python code mutates to the midpoint
before each `calculate_viability` call. -/
def solveLoop (cr : ℚ) (cy : ℕ) :
    ℕ → ℚ → ℚ → RetirementPlanner → Option (ℚ × ℚ × RetirementPlanner)
  | 0, low, high, q => some (low, high, q)
  | k + 1, low, high, q =>
    let mid := (low + high) / 2
    let q2 := { q with lump_sum := mid }
    (calculate_viability q2 cr cy).bind fun res =>
      if res.2.1 = true then solveLoop cr cy k low mid q2 else solveLoop cr cy k mid high q2

/-- `solve_required_capital(crash_rate, crash_years)`: binary search on
`[lump_sum, lump_sum * 10]`, 30 halvings, returns the final `high` and
restores `self.lump_sum = original_balance` afterwards.  The planner in the
result is the object's state after the call returns. -/
def solve_required_capital (p : RetirementPlanner) (cr : ℚ) (cy : ℕ) :
    Option (ℚ × RetirementPlanner) :=
  (solveLoop cr cy 30 p.lump_sum (p.lump_sum * 10) p).map fun out =>
    (out.2.1, { out.2.2 with lump_sum := p.lump_sum })

/-- The five risk labels returned by `calculate_swr_health`. -/
inductive RiskTier where
  | secure
  | critical
  | excellent
  | good
  | risky
  | danger

/-- `calculate_swr_health()`: gap check, gross-up by `1 - tax_rate` (raises
when `tax_rate = 1` and the gap is positive), capital check, then the
threshold chain `<= 0.035 / <= 0.045 / <= 0.06 / else`. -/
def calculate_swr_health (p : RetirementPlanner) : Option (ℚ × RiskTier) :=
  let initial_gap :=
    p.inputs.target_payout - (p.inputs.other_income + p.inputs.current_dividends)
  if initial_gap ≤ 0 then some (0, .secure)
  else if (1 : ℚ) - p.inputs.tax_rate = 0 then none
  else
    let gross_annual := initial_gap * 12 / (1 - p.inputs.tax_rate)
    if p.lump_sum ≤ 0 then some (0, .critical)
    else
      let rate := gross_annual / p.lump_sum
      if rate ≤ 35 / 1000 then some (rate, .excellent)
      else if rate ≤ 45 / 1000 then some (rate, .good)
      else if rate ≤ 6 / 100 then some (rate, .risky)
      else some (rate, .danger)

/-- The initial monthly income gap read off the input record. -/
def initialGap (p : RetirementPlanner) : ℚ :=
  p.inputs.target_payout - (p.inputs.other_income + p.inputs.current_dividends)

/-- The initial withdrawal rate
`(gap * 12) / (1 - tax_rate) / lump_sum` of the classifier. -/
def swrRate (p : RetirementPlanner) : ℚ :=
  initialGap p * 12 / (1 - p.inputs.tax_rate) / p.lump_sum

/-- Solvency verdict of a (pure-model) simulator run with the starting
capital replaced by `x`, as tested at each midpoint of the solver. -/
def solvB (p : RetirementPlanner) (cr : ℚ) (cy : ℕ) (x : ℚ) : Bool :=
  (runP { p with lump_sum := x } cr cy p.horizon_months).solv

/-- Pure model of the binary-search loop: the `(low, high)` interval after
`k` iterations. -/
def loopP (p : RetirementPlanner) (cr : ℚ) (cy : ℕ) : ℕ → ℚ → ℚ → ℚ × ℚ
  | 0, low, high => (low, high)
  | k + 1, low, high =>
    let mid := (low + high) / 2
    if solvB p cr cy mid = true then loopP p cr cy k low mid else loopP p cr cy k mid high

/-! ### Basic unfolding lemmas for the month loop -/

lemma monthsList_succ (n : ℕ) : monthsList (n + 1) = monthsList n ++ [n + 1] := by
  unfold monthsList
  rw [List.range'_concat]
  simp [Nat.add_comm]

lemma runP_zero (p : RetirementPlanner) (cr : ℚ) (cy : ℕ) :
    runP p cr cy 0 = initState p := rfl

lemma runP_succ (p : RetirementPlanner) (cr : ℚ) (cy : ℕ) (n : ℕ) :
    runP p cr cy (n + 1) = stepP p cr cy (n + 1) (runP p cr cy n) := by
  unfold runP
  rw [monthsList_succ, List.foldl_append]
  rfl

lemma runO_zero (p : RetirementPlanner) (cr : ℚ) (cy : ℕ) :
    runO p cr cy 0 = some (initState p) := rfl

lemma runO_succ (p : RetirementPlanner) (cr : ℚ) (cy : ℕ) (n : ℕ) :
    runO p cr cy (n + 1) = (runO p cr cy n).bind fun st => stepO p cr cy (n + 1) st := by
  unfold runO
  rw [monthsList_succ, List.foldlM_append]
  simp [List.foldlM]

/-- Bridge between the exception-aware run and the pure-arithmetic run: as
long as the tax rate is not exactly 1, no month of the loop raises. -/
lemma runO_eq_runP (p : RetirementPlanner) (cr : ℚ) (cy : ℕ)
    (hτ : p.inputs.tax_rate ≠ 1) (n : ℕ) :
    runO p cr cy n = some (runP p cr cy n) := by
  have hne : (1 : ℚ) - p.inputs.tax_rate ≠ 0 := sub_ne_zero_of_ne (Ne.symm hτ)
  induction n with
  | zero => rfl
  | succ n ih =>
      rw [runO_succ, ih, runP_succ]
      simp [stepO, hne]

/-! ### Field-wise description of one loop iteration -/

lemma stepP_current_div (p : RetirementPlanner) (cr : ℚ) (cy : ℕ) (m : ℕ) (st : SimState) :
    (stepP p cr cy m st).current_div = divAfter p m st.current_div := by
  simp only [stepP]
  split <;> rfl

lemma stepP_current_expense (p : RetirementPlanner) (cr : ℚ) (cy : ℕ) (m : ℕ) (st : SimState) :
    (stepP p cr cy m st).current_expense = expAfter p m st.current_expense := by
  simp only [stepP]
  split <;> rfl

lemma stepP_lastW (p : RetirementPlanner) (cr : ℚ) (cy : ℕ) (m : ℕ) (st : SimState) :
    (stepP p cr cy m st).lastW =
      grossWithdrawal p (expAfter p m st.current_expense) (divAfter p m st.current_div) := by
  simp only [stepP]
  split <;> rfl

lemma stepP_solv (p : RetirementPlanner) (cr : ℚ) (cy : ℕ) (m : ℕ) (st : SimState) :
    (stepP p cr cy m st).solv =
      if balAfter p cr cy m st ≤ 0 ∧ st.solv = true then false else st.solv := by
  simp only [stepP, balAfter]
  split <;> rfl

lemma stepP_msg (p : RetirementPlanner) (cr : ℚ) (cy : ℕ) (m : ℕ) (st : SimState) :
    (stepP p cr cy m st).msg =
      if balAfter p cr cy m st ≤ 0 ∧ st.solv = true then .depleted (yearOf m) else st.msg := by
  simp only [stepP, balAfter]
  split <;> rfl

lemma stepP_bal (p : RetirementPlanner) (cr : ℚ) (cy : ℕ) (m : ℕ) (st : SimState) :
    (stepP p cr cy m st).bal =
      if balAfter p cr cy m st ≤ 0 ∧ st.solv = true then 0 else balAfter p cr cy m st := by
  simp only [stepP, balAfter]
  split <;> rfl

lemma stepP_data (p : RetirementPlanner) (cr : ℚ) (cy : ℕ) (m : ℕ) (st : SimState) :
    (stepP p cr cy m st).data =
      if m % 12 = 0 ∨ m = p.horizon_months
      then st.data ++ [⟨yearOf m, expAfter p m st.current_expense,
        grossWithdrawal p (expAfter p m st.current_expense) (divAfter p m st.current_div),
        (stepP p cr cy m st).bal⟩]
      else st.data := by
  rw [stepP_bal]
  simp only [stepP, balAfter]
  split <;> rfl

/-! ### Trajectory structure, insolvency persistence, capital monotonicity -/

/-- The trajectory after `n` months holds exactly one row per sampled month
(`m % 12 == 0 or m == horizon_months`), carrying that month's
post-escalation expense, gross withdrawal and post-clamp balance. -/
lemma runP_data (p : RetirementPlanner) (cr : ℚ) (cy : ℕ) (n : ℕ) :
    (runP p cr cy n).data =
      ((monthsList n).filter fun m => decide (m % 12 = 0 ∨ m = p.horizon_months)).map
        fun m => ⟨yearOf m, (runP p cr cy m).current_expense,
                  (runP p cr cy m).lastW, (runP p cr cy m).bal⟩ := by
  induction n with
  | zero => rfl
  | succ n ih =>
      rw [runP_succ, stepP_data, monthsList_succ, List.filter_append, List.map_append, ih]
      by_cases hc : (n + 1) % 12 = 0 ∨ (n + 1) = p.horizon_months
      · rw [if_pos hc]
        have hf : List.filter (fun m => decide (m % 12 = 0 ∨ m = p.horizon_months)) [n + 1]
            = [n + 1] := by simp [List.filter, hc]
        rw [hf]
        simp only [List.map]
        rw [runP_succ, stepP_current_expense, stepP_lastW]
      · rw [if_neg hc]
        have hf : List.filter (fun m => decide (m % 12 = 0 ∨ m = p.horizon_months)) [n + 1]
            = [] := by simp [List.filter, hc]
        rw [hf]
        simp

/-- Once the solvency flag is false it stays false, and the insolvency
message (hence the recorded depletion year) is never overwritten. -/
lemma solv_persist (p : RetirementPlanner) (cr : ℚ) (cy : ℕ) (k : ℕ)
    (h : (runP p cr cy k).solv = false) :
    ∀ n, k ≤ n → (runP p cr cy n).solv = false ∧ (runP p cr cy n).msg = (runP p cr cy k).msg := by
  intro n hn
  induction n, hn using Nat.le_induction with
  | base => exact ⟨h, rfl⟩
  | succ n hn ih =>
      obtain ⟨hs, hm⟩ := ih
      rw [runP_succ]
      rw [stepP_solv, stepP_msg, hs]
      simp [hm]

/-- A solvent state has strictly positive balance (given positive starting
capital): the clamp would have fired otherwise. -/
lemma solvent_pos (p : RetirementPlanner) (cr : ℚ) (cy : ℕ) (hc : 0 < p.lump_sum) :
    ∀ n, (runP p cr cy n).solv = true → 0 < (runP p cr cy n).bal := by
  intro n
  induction n with
  | zero => intro _; exact hc
  | succ n ih =>
      intro hs
      rw [runP_succ, stepP_solv] at hs
      rw [runP_succ, stepP_bal]
      by_cases hcond : balAfter p cr cy (n + 1) (runP p cr cy n) ≤ 0
          ∧ (runP p cr cy n).solv = true
      · rw [if_pos hcond] at hs
        exact absurd hs (by simp)
      · rw [if_neg hcond]
        rw [if_neg hcond] at hs
        rcases not_and_or.mp hcond with hb | hsn
        · exact lt_of_not_le hb
        · exact absurd hs hsn

/-- The per-month growth factor is non-negative as soon as both annual rates
are at least -1200 percent. -/
lemma one_add_rate_nonneg (p : RetirementPlanner) (cr : ℚ) (cy : ℕ) (m : ℕ)
    (hr1 : -12 ≤ p.inputs.expected_return) (hr2 : -12 ≤ cr) :
    0 ≤ 1 + monthlyRate p cr cy m := by
  unfold monthlyRate
  split <;> linarith

/-- Core monotonicity invariant: two planners identical except for a larger
starting capital keep identical escalation state, an ordered balance, and an
ordered solvency flag, month after month. -/
lemma run_le (p1 p2 : RetirementPlanner) (cr : ℚ) (cy : ℕ)
    (ho : p1.inputs.other_income = p2.inputs.other_income)
    (hdv : p1.inputs.current_dividends = p2.inputs.current_dividends)
    (htp : p1.inputs.target_payout = p2.inputs.target_payout)
    (htx : p1.inputs.tax_rate = p2.inputs.tax_rate)
    (hin : p1.inputs.inflation_rate = p2.inputs.inflation_rate)
    (hgd : p1.inputs.gdp_growth = p2.inputs.gdp_growth)
    (her : p1.inputs.expected_return = p2.inputs.expected_return)
    (hb : p1.lump_sum ≤ p2.lump_sum)
    (hr1 : -12 ≤ p1.inputs.expected_return) (hr2 : -12 ≤ cr) :
    ∀ n, (runP p1 cr cy n).current_div = (runP p2 cr cy n).current_div
      ∧ (runP p1 cr cy n).current_expense = (runP p2 cr cy n).current_expense
      ∧ (runP p1 cr cy n).bal ≤ (runP p2 cr cy n).bal
      ∧ ((runP p1 cr cy n).solv = true → (runP p2 cr cy n).solv = true) := by
  intro n
  induction n with
  | zero =>
      exact ⟨hdv, htp, hb, fun h => h⟩
  | succ n ih =>
      obtain ⟨hd, he, hbal, hs⟩ := ih
      have hdiv2 : divAfter p1 (n + 1) (runP p1 cr cy n).current_div
          = divAfter p2 (n + 1) (runP p2 cr cy n).current_div := by
        unfold divAfter
        rw [hd, hgd]
      have hexp2 : expAfter p1 (n + 1) (runP p1 cr cy n).current_expense
          = expAfter p2 (n + 1) (runP p2 cr cy n).current_expense := by
        unfold expAfter
        rw [he, hin]
      have hrate : monthlyRate p1 cr cy (n + 1) = monthlyRate p2 cr cy (n + 1) := by
        unfold monthlyRate
        rw [her]
      have hg : grossWithdrawal p1
            (expAfter p1 (n + 1) (runP p1 cr cy n).current_expense)
            (divAfter p1 (n + 1) (runP p1 cr cy n).current_div)
          = grossWithdrawal p2
            (expAfter p2 (n + 1) (runP p2 cr cy n).current_expense)
            (divAfter p2 (n + 1) (runP p2 cr cy n).current_div) := by
        unfold grossWithdrawal
        rw [hdiv2, hexp2, ho, htx]
      have h1r : 0 ≤ 1 + monthlyRate p1 cr cy (n + 1) :=
        one_add_rate_nonneg p1 cr cy (n + 1) hr1 hr2
      have hbal2 : balAfter p1 cr cy (n + 1) (runP p1 cr cy n)
          ≤ balAfter p2 cr cy (n + 1) (runP p2 cr cy n) := by
        unfold balAfter
        rw [← hg, ← hrate]
        have hmul := mul_le_mul_of_nonneg_right hbal h1r
        nlinarith [hmul]
      rw [runP_succ, runP_succ, stepP_current_div p1, stepP_current_div p2,
        stepP_current_expense p1, stepP_current_expense p2,
        stepP_solv p1, stepP_solv p2, stepP_bal p1, stepP_bal p2]
      refine ⟨hdiv2, hexp2, ?_, ?_⟩
      · by_cases hc1 : balAfter p1 cr cy (n + 1) (runP p1 cr cy n) ≤ 0
            ∧ (runP p1 cr cy n).solv = true
        · rw [if_pos hc1]
          by_cases hc2 : balAfter p2 cr cy (n + 1) (runP p2 cr cy n) ≤ 0
              ∧ (runP p2 cr cy n).solv = true
          · rw [if_pos hc2]
          · rw [if_neg hc2]
            rcases not_and_or.mp hc2 with hb2 | hs2
            · exact le_of_lt (lt_of_not_le hb2)
            · exact absurd (hs hc1.2) hs2
        · rw [if_neg hc1]
          by_cases hc2 : balAfter p2 cr cy (n + 1) (runP p2 cr cy n) ≤ 0
              ∧ (runP p2 cr cy n).solv = true
          · rw [if_pos hc2]
            exact le_trans hbal2 hc2.1
          · rw [if_neg hc2]
            exact hbal2
      · intro hs1
        by_cases hc1 : balAfter p1 cr cy (n + 1) (runP p1 cr cy n) ≤ 0
            ∧ (runP p1 cr cy n).solv = true
        · rw [if_pos hc1] at hs1
          exact absurd hs1 (by simp)
        · rw [if_neg hc1] at hs1
          by_cases hc2 : balAfter p2 cr cy (n + 1) (runP p2 cr cy n) ≤ 0
              ∧ (runP p2 cr cy n).solv = true
          · exfalso
            exact hc1 ⟨le_trans hbal2 hc2.1, hs1⟩
          · rw [if_neg hc2]
            exact hs hs1

/-! ### Solver loop: planner framing, pure model, interval invariants -/

lemma planner_with_lump (q p : RetirementPlanner) (h1 : q.inputs = p.inputs)
    (h2 : q.horizon_months = p.horizon_months) (x : ℚ) :
    ({ q with lump_sum := x } : RetirementPlanner) = { p with lump_sum := x } := by
  cases q
  cases p
  simp only at h1 h2
  rw [h1, h2]

/-- The search loop never touches the planner's `inputs` or
`horizon_months`; only `lump_sum` is overwritten iteration by iteration. -/
lemma solveLoop_frame (cr : ℚ) (cy : ℕ) :
    ∀ (k : ℕ) (low high : ℚ) (q : RetirementPlanner) (out : ℚ × ℚ × RetirementPlanner),
      solveLoop cr cy k low high q = some out →
      out.2.2.inputs = q.inputs ∧ out.2.2.horizon_months = q.horizon_months := by
  intro k
  induction k with
  | zero =>
      intro low high q out he
      have h0 : solveLoop cr cy 0 low high q = some (low, high, q) := rfl
      rw [h0] at he
      rw [← Option.some_inj.mp he]
      exact ⟨rfl, rfl⟩
  | succ k ih =>
      intro low high q out he
      have hstep : solveLoop cr cy (k + 1) low high q
          = (calculate_viability { q with lump_sum := (low + high) / 2 } cr cy).bind
              fun res =>
                if res.2.1 = true
                then solveLoop cr cy k low ((low + high) / 2)
                  { q with lump_sum := (low + high) / 2 }
                else solveLoop cr cy k ((low + high) / 2) high
                  { q with lump_sum := (low + high) / 2 } := rfl
      rw [hstep] at he
      cases hcv : calculate_viability { q with lump_sum := (low + high) / 2 } cr cy with
      | none => rw [hcv] at he; cases he
      | some res =>
          rw [hcv] at he
          simp only [Option.bind] at he
          split at he <;>
            exact ih _ _ { q with lump_sum := (low + high) / 2 } out he

/-- With a non-degenerate tax rate no simulator call in the search raises, and
the `(low, high)` interval follows the pure model `loopP`. -/
lemma solveLoop_eq_loopP (p : RetirementPlanner) (cr : ℚ) (cy : ℕ)
    (hτ : p.inputs.tax_rate ≠ 1) :
    ∀ (k : ℕ) (low high : ℚ) (q : RetirementPlanner),
      q.inputs = p.inputs → q.horizon_months = p.horizon_months →
      ∃ q', solveLoop cr cy k low high q
        = some ((loopP p cr cy k low high).1, (loopP p cr cy k low high).2, q') := by
  intro k
  induction k with
  | zero =>
      intro low high q _ _
      exact ⟨q, rfl⟩
  | succ k ih =>
      intro low high q hqi hqh
      have hq2 : ({ q with lump_sum := (low + high) / 2 } : RetirementPlanner)
          = { p with lump_sum := (low + high) / 2 } :=
        planner_with_lump q p hqi hqh _
      have hcv : calculate_viability { q with lump_sum := (low + high) / 2 } cr cy
          = some ((runP { p with lump_sum := (low + high) / 2 } cr cy p.horizon_months).data,
              solvB p cr cy ((low + high) / 2),
              (runP { p with lump_sum := (low + high) / 2 } cr cy p.horizon_months).msg) := by
        rw [hq2]
        unfold calculate_viability
        rw [show ({ p with lump_sum := (low + high) / 2 } : RetirementPlanner).horizon_months
              = p.horizon_months from rfl]
        rw [runO_eq_runP { p with lump_sum := (low + high) / 2 } cr cy hτ]
        rfl
      have hstep : solveLoop cr cy (k + 1) low high q
          = (calculate_viability { q with lump_sum := (low + high) / 2 } cr cy).bind
              fun res =>
                if res.2.1 = true
                then solveLoop cr cy k low ((low + high) / 2)
                  { q with lump_sum := (low + high) / 2 }
                else solveLoop cr cy k ((low + high) / 2) high
                  { q with lump_sum := (low + high) / 2 } := rfl
      have hloop : loopP p cr cy (k + 1) low high
          = if solvB p cr cy ((low + high) / 2) = true
            then loopP p cr cy k low ((low + high) / 2)
            else loopP p cr cy k ((low + high) / 2) high := rfl
      rw [hstep, hcv, hloop]
      simp only [Option.bind]
      cases hm : solvB p cr cy ((low + high) / 2) with
      | false =>
          rw [if_neg (by simp), if_neg (by simp)]
          exact ih ((low + high) / 2) high _ (by rw [hq2]) (by rw [hq2])
      | true =>
          rw [if_pos rfl, if_pos rfl]
          exact ih low ((low + high) / 2) _ (by rw [hq2]) (by rw [hq2])

/-- Closed form of `solve_required_capital` for a non-degenerate tax rate:
the returned figure is the pure model's final `high`, and the planner is
restored to its pre-call state. -/
lemma solve_eq (p : RetirementPlanner) (cr : ℚ) (cy : ℕ)
    (hτ : p.inputs.tax_rate ≠ 1) :
    solve_required_capital p cr cy
      = some ((loopP p cr cy 30 p.lump_sum (p.lump_sum * 10)).2, p) := by
  obtain ⟨q', hq⟩ :=
    solveLoop_eq_loopP p cr cy hτ 30 p.lump_sum (p.lump_sum * 10) p rfl rfl
  have hfr := solveLoop_frame cr cy 30 p.lump_sum (p.lump_sum * 10) p _ hq
  unfold solve_required_capital
  rw [hq]
  simp only [Option.map]
  have : ({ q' with lump_sum := p.lump_sum } : RetirementPlanner) = p := by
    have h1 : q'.inputs = p.inputs := hfr.1
    have h2 : q'.horizon_months = p.horizon_months := hfr.2
    cases q'
    cases p
    simp only at h1 h2
    rw [h1, h2]
  rw [this]

/-- Interval invariant of the pure search loop: the upper end stays solvent,
the lower end is the original capital or an insolvent capital, and the gap
halves exactly once per iteration. -/
lemma loopP_inv (p : RetirementPlanner) (cr : ℚ) (cy : ℕ) (c0 : ℚ) :
    ∀ (k : ℕ) (low high : ℚ),
      solvB p cr cy high = true → (low = c0 ∨ solvB p cr cy low = false) → low ≤ high →
      solvB p cr cy (loopP p cr cy k low high).2 = true
      ∧ ((loopP p cr cy k low high).1 = c0 ∨ solvB p cr cy (loopP p cr cy k low high).1 = false)
      ∧ (loopP p cr cy k low high).1 ≤ (loopP p cr cy k low high).2
      ∧ (loopP p cr cy k low high).2 - (loopP p cr cy k low high).1
          = (high - low) / 2 ^ k := by
  intro k
  induction k with
  | zero =>
      intro low high h1 h2 h3
      refine ⟨h1, h2, h3, ?_⟩
      rw [show loopP p cr cy 0 low high = (low, high) from rfl]
      simp
  | succ k ih =>
      intro low high h1 h2 h3
      have hstep : loopP p cr cy (k + 1) low high
          = if solvB p cr cy ((low + high) / 2) = true
            then loopP p cr cy k low ((low + high) / 2)
            else loopP p cr cy k ((low + high) / 2) high := rfl
      have hhalf : (high - low) / 2 / 2 ^ k = (high - low) / 2 ^ (k + 1) := by
        rw [div_div, pow_succ, mul_comm]
      rw [hstep]
      cases hm : solvB p cr cy ((low + high) / 2) with
      | true =>
          rw [if_pos rfl]
          have hle : low ≤ (low + high) / 2 := by linarith
          obtain ⟨a, b, c, d⟩ := ih low ((low + high) / 2) hm h2 hle
          refine ⟨a, b, c, ?_⟩
          rw [d]
          rw [show (low + high) / 2 - low = (high - low) / 2 by ring]
          exact hhalf
      | false =>
          rw [if_neg (by simp)]
          have hle : (low + high) / 2 ≤ high := by linarith
          obtain ⟨a, b, c, d⟩ := ih ((low + high) / 2) high h1 (Or.inr hm) hle
          refine ⟨a, b, c, ?_⟩
          rw [d]
          rw [show high - (low + high) / 2 = (high - low) / 2 by ring]
          exact hhalf

/-- When the lower end itself is solvent and solvency is upward closed, the
loop pins `low` and converges geometrically onto it from above. -/
lemma loopP_lowfix (p : RetirementPlanner) (cr : ℚ) (cy : ℕ)
    (mono : ∀ x y, x ≤ y → solvB p cr cy x = true → solvB p cr cy y = true) :
    ∀ (k : ℕ) (low high : ℚ), solvB p cr cy low = true → low ≤ high →
      loopP p cr cy k low high = (low, low + (high - low) / 2 ^ k) := by
  intro k
  induction k with
  | zero =>
      intro low high _ _
      have : low + (high - low) / 2 ^ 0 = high := by ring
      rw [this]
      rfl
  | succ k ih =>
      intro low high hlow hle
      have hstep : loopP p cr cy (k + 1) low high
          = if solvB p cr cy ((low + high) / 2) = true
            then loopP p cr cy k low ((low + high) / 2)
            else loopP p cr cy k ((low + high) / 2) high := rfl
      have hmidle : low ≤ (low + high) / 2 := by linarith
      have hmid : solvB p cr cy ((low + high) / 2) = true := mono low _ hmidle hlow
      rw [hstep, if_pos (by rw [hmid])]
      rw [ih low ((low + high) / 2) hlow hmidle]
      have : low + ((low + high) / 2 - low) / 2 ^ k = low + (high - low) / 2 ^ (k + 1) := by
        rw [show (low + high) / 2 - low = (high - low) / 2 by ring,
          div_div, pow_succ, mul_comm]
      rw [this]

/-- When every capital in the interval is insolvent, the loop never moves the
upper end: it returns the original upper bound. -/
lemma loopP_insolv (p : RetirementPlanner) (cr : ℚ) (cy : ℕ) :
    ∀ (k : ℕ) (low high : ℚ),
      (∀ x, low ≤ x → x ≤ high → solvB p cr cy x = false) → low ≤ high →
      (loopP p cr cy k low high).2 = high := by
  intro k
  induction k with
  | zero => intro low high _ _; rfl
  | succ k ih =>
      intro low high hall hle
      have hstep : loopP p cr cy (k + 1) low high
          = if solvB p cr cy ((low + high) / 2) = true
            then loopP p cr cy k low ((low + high) / 2)
            else loopP p cr cy k ((low + high) / 2) high := rfl
      have hml : low ≤ (low + high) / 2 := by linarith
      have hmr : (low + high) / 2 ≤ high := by linarith
      have hmid : solvB p cr cy ((low + high) / 2) = false := hall _ hml hmr
      rw [hstep, hmid, if_neg Bool.false_ne_true]
      exact ih ((low + high) / 2) high (fun x hx1 hx2 => hall x (le_trans hml hx1) hx2) hmr

/-- Solvency of a run is monotone in the starting capital, for growth factors
that stay non-negative. -/
lemma solvB_mono (p : RetirementPlanner) (cr : ℚ) (cy : ℕ)
    (hr1 : -12 ≤ p.inputs.expected_return) (hr2 : -12 ≤ cr) :
    ∀ x y, x ≤ y → solvB p cr cy x = true → solvB p cr cy y = true := by
  intro x y hxy hx
  exact (run_le { p with lump_sum := x } { p with lump_sum := y } cr cy rfl rfl rfl rfl rfl
    rfl rfl hxy hr1 hr2 p.horizon_months).2.2.2 hx

/-! ### A family of always-solvent scenarios (zero spend, zero rates) -/

/-- In a scenario with zero incomes, zero target spend and zero rates, the
balance never moves: every run from a positive capital stays solvent with an
unchanged balance. -/
lemma run_trivial (i : ScenarioInput) (cy : ℕ) (x : ℚ) (hx : 0 < x) (N : ℕ)
    (h1 : i.other_income = 0) (h2 : i.current_dividends = 0) (h3 : i.target_payout = 0)
    (h4 : i.expected_return = 0) :
    ∀ n, (runP { inputs := i, lump_sum := x, horizon_months := N } 0 cy n).bal = x
      ∧ (runP { inputs := i, lump_sum := x, horizon_months := N } 0 cy n).current_div = 0
      ∧ (runP { inputs := i, lump_sum := x, horizon_months := N } 0 cy n).current_expense = 0
      ∧ (runP { inputs := i, lump_sum := x, horizon_months := N } 0 cy n).solv = true := by
  intro n
  induction n with
  | zero => exact ⟨rfl, h2, h3, rfl⟩
  | succ n ih =>
      obtain ⟨hb, hd, he, hs⟩ := ih
      set p : RetirementPlanner := { inputs := i, lump_sum := x, horizon_months := N } with hp
      have hda : divAfter p (n + 1) ((runP p 0 cy n).current_div) = 0 := by
        rw [hd]
        unfold divAfter
        split <;> ring
      have hea : expAfter p (n + 1) ((runP p 0 cy n).current_expense) = 0 := by
        rw [he]
        unfold expAfter
        split <;> ring
      have hra : monthlyRate p 0 cy (n + 1) = 0 := by
        unfold monthlyRate
        split <;> simp [h4]
      have hga : grossWithdrawal p 0 0 = 0 := by
        unfold grossWithdrawal
        simp [h1]
      have hba : balAfter p 0 cy (n + 1) (runP p 0 cy n) = x := by
        unfold balAfter
        rw [hda, hea, hga, hra, hb]
        ring
      have hcond : ¬ (balAfter p 0 cy (n + 1) (runP p 0 cy n) ≤ 0
          ∧ (runP p 0 cy n).solv = true) := by
        rw [hba]
        intro hcc
        exact absurd hcc.1 (not_le.mpr hx)
      rw [runP_succ, stepP_bal, stepP_current_div, stepP_current_expense, stepP_solv]
      rw [if_neg hcond, if_neg hcond, hba, hda, hea]
      exact ⟨rfl, rfl, rfl, hs⟩

/-- Specialization of `run_trivial` to the solver's solvency probe. -/
lemma solvB_trivial (i : ScenarioInput) (cy : ℕ)
    (h1 : i.other_income = 0) (h2 : i.current_dividends = 0) (h3 : i.target_payout = 0)
    (h4 : i.expected_return = 0) (x : ℚ) (hx : 0 < x) :
    solvB (mkPlanner i) 0 cy x = true := by
  unfold solvB
  exact (run_trivial i cy x hx (mkPlanner i).horizon_months h1 h2 h3 h4
    (mkPlanner i).horizon_months).2.2.2

/-! ### Claim C4 -/

/-- C4 (amended): increasing the starting capital (all other scenario fields
and shock parameters fixed) never decreases the balance and never turns a
solvent run insolvent, at any month — provided both annual rates keep the
monthly growth factor non-negative (rate at least -1200 percent).  The
unamended claim fails for more violent negative rates (`c4_cex`). -/
theorem c4_capital_monotone (i : ScenarioInput) (cr : ℚ) (cy : ℕ) (c1 c2 : ℚ)
    (hr1 : -12 ≤ i.expected_return) (hr2 : -12 ≤ cr) (hc : c1 ≤ c2) (n : ℕ) :
    (runP (mkPlanner { i with lump_sum := c1 }) cr cy n).bal
      ≤ (runP (mkPlanner { i with lump_sum := c2 }) cr cy n).bal
    ∧ ((runP (mkPlanner { i with lump_sum := c1 }) cr cy n).solv = true
        → (runP (mkPlanner { i with lump_sum := c2 }) cr cy n).solv = true) := by
  have h := run_le (mkPlanner { i with lump_sum := c1 }) (mkPlanner { i with lump_sum := c2 })
    cr cy rfl rfl rfl rfl rfl rfl rfl hc hr1 hr2 n
  exact ⟨h.2.2.1, h.2.2.2⟩

/-- C4 (counterexample): two scenarios identical except for starting capital
12 vs 20 (spend 1/month, no income, expected return -2400 percent annually,
shock rate 0 for the first year, horizon 2 years).  The larger capital ends
the horizon at balance -1, the smaller at balance 0: the final balance is not
monotone in starting capital, refuting the claim as stated. -/
theorem c4_cex :
    ((12 : ℚ) ≤ 20)
    ∧ (runP (mkPlanner ⟨12, 0, 0, 1, 0, 2, 0, 0, -24⟩) 0 1 24).bal = 0
    ∧ (runP (mkPlanner ⟨20, 0, 0, 1, 0, 2, 0, 0, -24⟩) 0 1 24).bal = -1
    ∧ ¬ ((runP (mkPlanner ⟨12, 0, 0, 1, 0, 2, 0, 0, -24⟩) 0 1 24).bal
        ≤ (runP (mkPlanner ⟨20, 0, 0, 1, 0, 2, 0, 0, -24⟩) 0 1 24).bal) := by
  have hm : monthsList 24 = [1,2,3,4,5,6,7,8,9,10,11,12,13,14,15,16,17,18,19,20,21,22,23,24] := rfl
  have h12 : (runP (mkPlanner ⟨12, 0, 0, 1, 0, 2, 0, 0, -24⟩) 0 1 24).bal = 0 := by
    rw [runP, hm]
    simp only [List.foldl]
    norm_num [stepP, initState, mkPlanner, divAfter, expAfter, grossWithdrawal,
      monthlyRate, yearOf, max_def]
  have h20 : (runP (mkPlanner ⟨20, 0, 0, 1, 0, 2, 0, 0, -24⟩) 0 1 24).bal = -1 := by
    rw [runP, hm]
    simp only [List.foldl]
    norm_num [stepP, initState, mkPlanner, divAfter, expAfter, grossWithdrawal,
      monthlyRate, yearOf, max_def]
  refine ⟨by norm_num, h12, h20, ?_⟩
  rw [h12, h20]
  norm_num

/-- C4 (witness): the amended theorem applied to a concrete benign scenario. -/
theorem c4_witness :
    (runP (mkPlanner { (⟨0, 0, 0, 1, 0, 1, 0, 0, 0⟩ : ScenarioInput) with lump_sum := 5 }) 0 0 12).bal
      ≤ (runP (mkPlanner { (⟨0, 0, 0, 1, 0, 1, 0, 0, 0⟩ : ScenarioInput) with lump_sum := 6 }) 0 0 12).bal
    ∧ ((runP (mkPlanner { (⟨0, 0, 0, 1, 0, 1, 0, 0, 0⟩ : ScenarioInput) with lump_sum := 5 }) 0 0 12).solv = true
        → (runP (mkPlanner { (⟨0, 0, 0, 1, 0, 1, 0, 0, 0⟩ : ScenarioInput) with lump_sum := 6 }) 0 0 12).solv = true) :=
  c4_capital_monotone ⟨0, 0, 0, 1, 0, 1, 0, 0, 0⟩ 0 0 5 6 (by norm_num) (by norm_num)
    (by norm_num) 12

/-! ### Claim C9 -/

/-- C9: `solve_required_capital` only mutates a local copy of the starting
capital: whenever the call returns, the planner state it leaves behind (the
object the caller holds) equals the pre-call planner — same `inputs` record,
same `lump_sum`, same `horizon_months`. -/
theorem c9_restores_planner (p : RetirementPlanner) (cr : ℚ) (cy : ℕ) (r : ℚ)
    (q : RetirementPlanner)
    (h : solve_required_capital p cr cy = some (r, q)) : q = p := by
  unfold solve_required_capital at h
  cases hsl : solveLoop cr cy 30 p.lump_sum (p.lump_sum * 10) p with
  | none => rw [hsl] at h; cases h
  | some out =>
      rw [hsl] at h
      simp only [Option.map] at h
      have hfr := solveLoop_frame cr cy 30 p.lump_sum (p.lump_sum * 10) p out hsl
      have hpair := Option.some_inj.mp h
      have hq : q = { out.2.2 with lump_sum := p.lump_sum } := (congrArg Prod.snd hpair).symm
      rw [hq, planner_with_lump out.2.2 p hfr.1 hfr.2 p.lump_sum]

/-- C9 (witness): on a concrete scenario the returned planner is the original
planner. -/
theorem c9_witness :
    (solve_required_capital (mkPlanner ⟨3, 0, 0, 0, 0, 1, 0, 0, 0⟩) 0 0).map Prod.snd
      = some (mkPlanner ⟨3, 0, 0, 0, 0, 1, 0, 0, 0⟩) := by
  have hτ : (mkPlanner ⟨3, 0, 0, 0, 0, 1, 0, 0, 0⟩).inputs.tax_rate ≠ 1 := by
    norm_num [mkPlanner]
  have hs := solve_eq (mkPlanner ⟨3, 0, 0, 0, 0, 1, 0, 0, 0⟩) 0 0 hτ
  exact (congrArg (Option.map Prod.snd) hs).trans
    (congrArg some (c9_restores_planner (mkPlanner ⟨3, 0, 0, 0, 0, 1, 0, 0, 0⟩) 0 0 _ _ hs))

/-! ### Claim C1 -/

/-- C1 (amended): once the balance first reaches 0 or below, the solvency
flag stays false for the rest of the run and the recorded depletion message
(hence the depletion year) is never overwritten; the balance is clamped to
exactly 0 at the month the flag flips.  (The unamended claim — that the
balance then stays 0 for all later months and sampled points — fails:
see `c1_cex`.) -/
theorem c1_insolvency_latch (p : RetirementPlanner) (cr : ℚ) (cy : ℕ) (k n : ℕ)
    (hk : k ≤ n) :
    ((runP p cr cy k).solv = false →
      (runP p cr cy n).solv = false ∧ (runP p cr cy n).msg = (runP p cr cy k).msg)
    ∧ ((runP p cr cy k).solv = true → (runP p cr cy (k + 1)).solv = false →
        (runP p cr cy (k + 1)).bal = 0) := by
  constructor
  · intro h
    exact solv_persist p cr cy k h n hk
  · intro hs hs'
    rw [runP_succ, stepP_bal]
    rw [runP_succ, stepP_solv] at hs'
    by_cases hc : balAfter p cr cy (k + 1) (runP p cr cy k) ≤ 0
        ∧ (runP p cr cy k).solv = true
    · rw [if_pos hc]
    · rw [if_neg hc] at hs'
      rw [hs] at hs'
      exact absurd hs' (by decide)

/-- C1 (counterexample): capital 1, spend 1/month, no income, zero rates,
horizon 1 year.  The balance hits 0 at month 1 (depletion year 1), but later
months keep subtracting the withdrawal, so the year-1 sampled balance is -11,
not 0: the claim's "balance stays exactly 0 and every sampled point from
year Y onward is 0" is false on the code. -/
theorem c1_cex :
    calculate_viability (mkPlanner ⟨1, 0, 0, 1, 0, 1, 0, 0, 0⟩) 0 0
      = some ([⟨1, 1, 1, -11⟩], false, .depleted 1)
    ∧ ((-11 : ℚ) ≠ 0) := by
  constructor
  · unfold calculate_viability
    rw [show (mkPlanner ⟨1, 0, 0, 1, 0, 1, 0, 0, 0⟩).horizon_months = 12 from rfl]
    rw [runO_eq_runP _ _ _ (by norm_num [mkPlanner])]
    have hm : monthsList 12 = [1, 2, 3, 4, 5, 6, 7, 8, 9, 10, 11, 12] := rfl
    rw [Option.map_some', runP, hm]
    simp only [List.foldl]
    norm_num [stepP, initState, mkPlanner, divAfter, expAfter, grossWithdrawal,
      monthlyRate, yearOf, max_def]
  · norm_num

/-- C1 (witness): the latch applied to the depleted run of `c1_cex`: the flag
flips at month 1 and the message is still `DEPLETED (Year 1)` at month 12. -/
theorem c1_witness :
    (runP (mkPlanner ⟨1, 0, 0, 1, 0, 1, 0, 0, 0⟩) 0 0 12).solv = false
    ∧ (runP (mkPlanner ⟨1, 0, 0, 1, 0, 1, 0, 0, 0⟩) 0 0 12).msg = .depleted 1 := by
  have hev : (runP (mkPlanner ⟨1, 0, 0, 1, 0, 1, 0, 0, 0⟩) 0 0 1).solv = false
      ∧ (runP (mkPlanner ⟨1, 0, 0, 1, 0, 1, 0, 0, 0⟩) 0 0 1).msg = .depleted 1 := by
    have hm : monthsList 1 = [1] := rfl
    constructor <;>
      · rw [runP, hm]
        simp only [List.foldl]
        norm_num [stepP, initState, mkPlanner, divAfter, expAfter, grossWithdrawal,
          monthlyRate, yearOf, max_def]
  have h := (c1_insolvency_latch (mkPlanner ⟨1, 0, 0, 1, 0, 1, 0, 0, 0⟩) 0 0 1 12
    (by norm_num)).1 hev.1
  exact ⟨h.1, h.2.trans hev.2⟩

/-! ### Claim C2 -/

/-- C2 (amended): provided the simulator is solvent at the search's upper
bound `10 * capital` (the claim as stated fails when it is not — `c2_cex`),
and growth factors are non-negative so that solvency is monotone in capital,
the value returned by `solve_required_capital` is itself solvent when re-run,
and it is minimal to within the search resolution `9 * capital / 2^30`:
everything one resolution step below it is the original capital or an
insolvent capital. -/
theorem c2_solver_correct (p : RetirementPlanner) (cr : ℚ) (cy : ℕ)
    (hτ : p.inputs.tax_rate ≠ 1)
    (hr1 : -12 ≤ p.inputs.expected_return) (hr2 : -12 ≤ cr)
    (hcap : 0 ≤ p.lump_sum)
    (hhigh : solvB p cr cy (p.lump_sum * 10) = true)
    (r : ℚ) (q : RetirementPlanner)
    (h : solve_required_capital p cr cy = some (r, q)) :
    solvB p cr cy r = true
    ∧ (r - 9 * p.lump_sum / 2 ^ 30 = p.lump_sum
       ∨ ∀ x, x ≤ r - 9 * p.lump_sum / 2 ^ 30 → solvB p cr cy x = false) := by
  rw [solve_eq p cr cy hτ] at h
  have hpair := Option.some_inj.mp h
  have hr : r = (loopP p cr cy 30 p.lump_sum (p.lump_sum * 10)).2 :=
    (congrArg Prod.fst hpair).symm
  obtain ⟨ha, hb, hle, hd⟩ := loopP_inv p cr cy p.lump_sum 30 p.lump_sum (p.lump_sum * 10)
    hhigh (Or.inl rfl) (by linarith)
  have hgap : (loopP p cr cy 30 p.lump_sum (p.lump_sum * 10)).1
      = r - 9 * p.lump_sum / 2 ^ 30 := by
    rw [hr]
    have h9 : (p.lump_sum * 10 - p.lump_sum) / 2 ^ 30 = 9 * p.lump_sum / 2 ^ 30 := by
      ring
    linarith [hd, h9]
  constructor
  · rw [hr]
    exact ha
  · rw [← hgap]
    rcases hb with h0 | hins
    · exact Or.inl h0
    · right
      intro x hx
      cases hxs : solvB p cr cy x with
      | false => rfl
      | true =>
          have hmono := solvB_mono p cr cy hr1 hr2 x _ hx hxs
          rw [hins] at hmono
          exact absurd hmono (by decide)

/-- The solvency verdict reported by `calculate_viability`, for a
non-degenerate tax rate, is the pure run's flag. -/
lemma cv_solv (p : RetirementPlanner) (cr : ℚ) (cy : ℕ) (hτ : p.inputs.tax_rate ≠ 1) :
    (calculate_viability p cr cy).map (fun res => res.2.1)
      = some ((runP p cr cy p.horizon_months).solv) := by
  unfold calculate_viability
  rw [runO_eq_runP p cr cy hτ]
  rfl

/-- Scenario for the C2 counterexample: capital 1, spend 100/month, no
income, zero rates, horizon 1 year — no capital in the search range
`[1, 10]` survives even the first month. -/
def c2cPlanner : RetirementPlanner := mkPlanner ⟨1, 0, 0, 100, 0, 1, 0, 0, 0⟩

/-- Every capital up to the search's upper bound is insolvent in the C2
counterexample scenario. -/
lemma c2c_insolvent : ∀ x : ℚ, x ≤ 10 → solvB c2cPlanner 0 0 x = false := by
  intro x hx
  unfold solvB
  rw [show c2cPlanner.horizon_months = 12 from rfl]
  have h1 : (runP { c2cPlanner with lump_sum := x } 0 0 1).solv = false := by
    rw [show (1 : ℕ) = 0 + 1 from rfl, runP_succ, stepP_solv]
    have hcond : balAfter { c2cPlanner with lump_sum := x } 0 0 (0 + 1)
        (runP { c2cPlanner with lump_sum := x } 0 0 0) ≤ 0
        ∧ (runP { c2cPlanner with lump_sum := x } 0 0 0).solv = true := by
      constructor
      · have hb : balAfter { c2cPlanner with lump_sum := x } 0 0 (0 + 1)
            (runP { c2cPlanner with lump_sum := x } 0 0 0) = x - 100 := by
          norm_num [balAfter, monthlyRate, yearOf, divAfter, expAfter, grossWithdrawal,
            initState, runP_zero, c2cPlanner, mkPlanner, max_def]
        rw [hb]
        linarith
      · rfl
    rw [if_pos hcond]
  exact (solv_persist { c2cPlanner with lump_sum := x } 0 0 1 h1 12 (by norm_num)).1

/-- C2 (counterexample): in the scenario of `c2cPlanner` the solver's fixed
range `[1, 10]` holds no solvent capital, so the search returns the bound 10
itself — and re-running the simulator at the returned capital 10 is *not*
solvent (the true requirement is about 1200): the claim's minimality and
re-solvency statement fails as stated. -/
theorem c2_cex :
    solve_required_capital c2cPlanner 0 0 = some (10, c2cPlanner)
    ∧ (calculate_viability { c2cPlanner with lump_sum := 10 } 0 0).map (fun res => res.2.1)
        = some false := by
  have hτ : c2cPlanner.inputs.tax_rate ≠ 1 := by norm_num [c2cPlanner, mkPlanner]
  constructor
  · have hs := solve_eq c2cPlanner 0 0 hτ
    rw [hs]
    have hall : ∀ y : ℚ, c2cPlanner.lump_sum ≤ y → y ≤ c2cPlanner.lump_sum * 10 →
        solvB c2cPlanner 0 0 y = false := by
      intro y _ hy2
      refine c2c_insolvent y ?_
      have : c2cPlanner.lump_sum * 10 = 10 := by norm_num [c2cPlanner, mkPlanner]
      linarith [this ▸ hy2]
    have hins := loopP_insolv c2cPlanner 0 0 30 c2cPlanner.lump_sum
      (c2cPlanner.lump_sum * 10) hall (by norm_num [c2cPlanner, mkPlanner])
    rw [hins]
    norm_num [c2cPlanner, mkPlanner]
  · rw [cv_solv { c2cPlanner with lump_sum := 10 } 0 0 hτ]
    have hsv := c2c_insolvent 10 (by norm_num)
    unfold solvB at hsv
    exact congrArg some hsv

/-- Scenario for the C2 witness: capital 1, no spend, zero rates. -/
def c2wPlanner : RetirementPlanner := mkPlanner ⟨1, 0, 0, 0, 0, 1, 0, 0, 0⟩

/-- C2 (witness): the amended solver-correctness theorem instantiated on the
always-solvent zero-spend scenario. -/
theorem c2_witness :
    solvB c2wPlanner 0 0
      ((loopP c2wPlanner 0 0 30 c2wPlanner.lump_sum (c2wPlanner.lump_sum * 10)).2) = true
    ∧ ((loopP c2wPlanner 0 0 30 c2wPlanner.lump_sum (c2wPlanner.lump_sum * 10)).2
          - 9 * c2wPlanner.lump_sum / 2 ^ 30 = c2wPlanner.lump_sum
       ∨ ∀ x, x ≤ (loopP c2wPlanner 0 0 30 c2wPlanner.lump_sum (c2wPlanner.lump_sum * 10)).2
            - 9 * c2wPlanner.lump_sum / 2 ^ 30 → solvB c2wPlanner 0 0 x = false) :=
  c2_solver_correct c2wPlanner 0 0 (by norm_num [c2wPlanner, mkPlanner])
    (by norm_num [c2wPlanner, mkPlanner]) (by norm_num)
    (by norm_num [c2wPlanner, mkPlanner])
    (solvB_trivial ⟨1, 0, 0, 0, 0, 1, 0, 0, 0⟩ 0 rfl rfl rfl rfl _
      (by norm_num [c2wPlanner, mkPlanner]))
    _ c2wPlanner (solve_eq c2wPlanner 0 0 (by norm_num [c2wPlanner, mkPlanner]))

/-! ### Claim C8 -/

/-- C8 (amended): when the scenario is already solvent at the original
starting capital (and growth factors keep solvency monotone), the search
still runs and converges onto the lower bound — but it reports
`capital + 9 * capital / 2^30`, one residual gap *above* the original
capital, not a value less than or equal to it (see `c8_cex`). -/
theorem c8_lower_bound_convergence (p : RetirementPlanner) (cr : ℚ) (cy : ℕ)
    (hτ : p.inputs.tax_rate ≠ 1)
    (hr1 : -12 ≤ p.inputs.expected_return) (hr2 : -12 ≤ cr)
    (hcap : 0 ≤ p.lump_sum)
    (hlow : solvB p cr cy p.lump_sum = true)
    (r : ℚ) (q : RetirementPlanner)
    (h : solve_required_capital p cr cy = some (r, q)) :
    r = p.lump_sum + 9 * p.lump_sum / 2 ^ 30 := by
  rw [solve_eq p cr cy hτ] at h
  have hpair := Option.some_inj.mp h
  have hr : r = (loopP p cr cy 30 p.lump_sum (p.lump_sum * 10)).2 :=
    (congrArg Prod.fst hpair).symm
  have hfix := loopP_lowfix p cr cy (solvB_mono p cr cy hr1 hr2) 30 p.lump_sum
    (p.lump_sum * 10) hlow (by linarith)
  rw [hr, hfix]
  show p.lump_sum + (p.lump_sum * 10 - p.lump_sum) / 2 ^ 30 = _
  ring

/-- Scenario for the C8 counterexample: capital 1, no spend, zero rates —
already solvent at the original capital. -/
def c8cPlanner : RetirementPlanner := mkPlanner ⟨1, 0, 0, 0, 0, 1, 0, 0, 0⟩

/-- C8 (counterexample): on an already-solvent scenario the solver returns
`1 + 9 / 2^30`, which is strictly greater than the original capital 1 — the
claim's "reports a value less than or equal to the original starting
capital" is false on the code. -/
theorem c8_cex :
    solve_required_capital c8cPlanner 0 0 = some (1 + 9 / 2 ^ 30, c8cPlanner)
    ∧ ¬ ((1 : ℚ) + 9 / 2 ^ 30 ≤ 1) := by
  have hτ : c8cPlanner.inputs.tax_rate ≠ 1 := by norm_num [c8cPlanner, mkPlanner]
  have hmono := solvB_mono c8cPlanner 0 0 (by norm_num [c8cPlanner, mkPlanner]) (by norm_num)
  have hlow : solvB c8cPlanner 0 0 c8cPlanner.lump_sum = true :=
    solvB_trivial ⟨1, 0, 0, 0, 0, 1, 0, 0, 0⟩ 0 rfl rfl rfl rfl _
      (by norm_num [c8cPlanner, mkPlanner])
  have hfix := loopP_lowfix c8cPlanner 0 0 hmono 30 c8cPlanner.lump_sum
    (c8cPlanner.lump_sum * 10) hlow (by norm_num [c8cPlanner, mkPlanner])
  have hs := solve_eq c8cPlanner 0 0 hτ
  constructor
  · rw [hs, hfix]
    norm_num [c8cPlanner, mkPlanner]
  · norm_num

/-- Scenario for the C8 witness: capital 2, no spend, zero rates. -/
def c8wPlanner : RetirementPlanner := mkPlanner ⟨2, 0, 0, 0, 0, 1, 0, 0, 0⟩

/-- C8 (witness): the amended convergence theorem instantiated on a concrete
already-solvent scenario. -/
theorem c8_witness :
    (loopP c8wPlanner 0 0 30 c8wPlanner.lump_sum (c8wPlanner.lump_sum * 10)).2
      = c8wPlanner.lump_sum + 9 * c8wPlanner.lump_sum / 2 ^ 30 :=
  c8_lower_bound_convergence c8wPlanner 0 0 (by norm_num [c8wPlanner, mkPlanner])
    (by norm_num [c8wPlanner, mkPlanner]) (by norm_num)
    (by norm_num [c8wPlanner, mkPlanner])
    (solvB_trivial ⟨2, 0, 0, 0, 0, 1, 0, 0, 0⟩ 0 rfl rfl rfl rfl _
      (by norm_num [c8wPlanner, mkPlanner]))
    _ c8wPlanner (solve_eq c8wPlanner 0 0 (by norm_num [c8wPlanner, mkPlanner]))

/-! ### Claim C5 -/

/-- C5: full behavior of `calculate_swr_health` for tax rate below 1.  A
non-positive gap returns `(0, SECURE)` regardless of capital (even capital
at or below 0); with a positive gap, non-positive capital returns
`(0, CRITICAL)`; otherwise the rate `(gap * 12) / (1 - tax) / capital` is
classified with inclusive upper bounds 3.5 percent / 4.5 percent /
6 percent. -/
theorem c5_classifier (p : RetirementPlanner) (hτ : p.inputs.tax_rate < 1) :
    (initialGap p ≤ 0 → calculate_swr_health p = some (0, .secure))
    ∧ (0 < initialGap p → p.lump_sum ≤ 0 → calculate_swr_health p = some (0, .critical))
    ∧ (0 < initialGap p → 0 < p.lump_sum → swrRate p ≤ 35 / 1000 →
        calculate_swr_health p = some (swrRate p, .excellent))
    ∧ (0 < initialGap p → 0 < p.lump_sum → 35 / 1000 < swrRate p → swrRate p ≤ 45 / 1000 →
        calculate_swr_health p = some (swrRate p, .good))
    ∧ (0 < initialGap p → 0 < p.lump_sum → 45 / 1000 < swrRate p → swrRate p ≤ 6 / 100 →
        calculate_swr_health p = some (swrRate p, .risky))
    ∧ (0 < initialGap p → 0 < p.lump_sum → 6 / 100 < swrRate p →
        calculate_swr_health p = some (swrRate p, .danger)) := by
  have hne : (1 : ℚ) - p.inputs.tax_rate ≠ 0 := by
    have : (0 : ℚ) < 1 - p.inputs.tax_rate := by linarith
    exact ne_of_gt this
  refine ⟨?_, ?_, ?_, ?_, ?_, ?_⟩
  · intro hg
    unfold initialGap at hg
    simp only [calculate_swr_health]
    rw [if_pos hg]
  · intro hg hl
    unfold initialGap at hg
    simp only [calculate_swr_health]
    rw [if_neg (not_le.mpr hg), if_neg hne, if_pos hl]
  · intro hg hl hr
    unfold initialGap at hg
    unfold swrRate initialGap at hr
    simp only [calculate_swr_health]
    rw [if_neg (not_le.mpr hg), if_neg hne, if_neg (not_le.mpr hl), if_pos hr]
    rfl
  · intro hg hl hr1 hr2
    unfold initialGap at hg
    unfold swrRate initialGap at hr1 hr2
    simp only [calculate_swr_health]
    rw [if_neg (not_le.mpr hg), if_neg hne, if_neg (not_le.mpr hl),
      if_neg (not_le.mpr hr1), if_pos hr2]
    rfl
  · intro hg hl hr1 hr2
    unfold initialGap at hg
    unfold swrRate initialGap at hr1 hr2
    simp only [calculate_swr_health]
    rw [if_neg (not_le.mpr hg), if_neg hne, if_neg (not_le.mpr hl),
      if_neg (not_le.mpr (show (35 : ℚ) / 1000 < _ by linarith)),
      if_neg (not_le.mpr hr1), if_pos hr2]
    rfl
  · intro hg hl hr
    unfold initialGap at hg
    unfold swrRate initialGap at hr
    simp only [calculate_swr_health]
    rw [if_neg (not_le.mpr hg), if_neg hne, if_neg (not_le.mpr hl),
      if_neg (not_le.mpr (show (35 : ℚ) / 1000 < _ by linarith)),
      if_neg (not_le.mpr (show (45 : ℚ) / 1000 < _ by linarith)),
      if_neg (not_le.mpr hr)]
    rfl

/-- C5 (witness): the classifier evaluated on one concrete scenario per
branch, including the three inclusive boundary rates 3.5, 4.5 and 6
percent. -/
theorem c5_witness :
    calculate_swr_health (mkPlanner ⟨-5, 5, 0, 5, 0, 1, 0, 0, 0⟩) = some (0, .secure)
    ∧ calculate_swr_health (mkPlanner ⟨0, 0, 0, 1, 0, 1, 0, 0, 0⟩) = some (0, .critical)
    ∧ calculate_swr_health (mkPlanner ⟨2400, 0, 0, 7, 0, 1, 0, 0, 0⟩)
        = some (7 / 200, .excellent)
    ∧ calculate_swr_health (mkPlanner ⟨2400, 0, 0, 9, 0, 1, 0, 0, 0⟩)
        = some (9 / 200, .good)
    ∧ calculate_swr_health (mkPlanner ⟨2400, 0, 0, 12, 0, 1, 0, 0, 0⟩)
        = some (3 / 50, .risky)
    ∧ calculate_swr_health (mkPlanner ⟨2400, 0, 0, 13, 0, 1, 0, 0, 0⟩)
        = some (13 / 200, .danger) := by
  refine ⟨?_, ?_, ?_, ?_, ?_, ?_⟩
  · exact (c5_classifier (mkPlanner ⟨-5, 5, 0, 5, 0, 1, 0, 0, 0⟩)
      (by norm_num [mkPlanner])).1 (by norm_num [initialGap, mkPlanner])
  · exact (c5_classifier (mkPlanner ⟨0, 0, 0, 1, 0, 1, 0, 0, 0⟩)
      (by norm_num [mkPlanner])).2.1 (by norm_num [initialGap, mkPlanner])
      (by norm_num [mkPlanner])
  · refine ((c5_classifier (mkPlanner ⟨2400, 0, 0, 7, 0, 1, 0, 0, 0⟩)
      (by norm_num [mkPlanner])).2.2.1 (by norm_num [initialGap, mkPlanner])
      (by norm_num [mkPlanner])
      (by norm_num [swrRate, initialGap, mkPlanner])).trans ?_
    norm_num [swrRate, initialGap, mkPlanner]
  · refine ((c5_classifier (mkPlanner ⟨2400, 0, 0, 9, 0, 1, 0, 0, 0⟩)
      (by norm_num [mkPlanner])).2.2.2.1 (by norm_num [initialGap, mkPlanner])
      (by norm_num [mkPlanner])
      (by norm_num [swrRate, initialGap, mkPlanner])
      (by norm_num [swrRate, initialGap, mkPlanner])).trans ?_
    norm_num [swrRate, initialGap, mkPlanner]
  · refine ((c5_classifier (mkPlanner ⟨2400, 0, 0, 12, 0, 1, 0, 0, 0⟩)
      (by norm_num [mkPlanner])).2.2.2.2.1 (by norm_num [initialGap, mkPlanner])
      (by norm_num [mkPlanner])
      (by norm_num [swrRate, initialGap, mkPlanner])
      (by norm_num [swrRate, initialGap, mkPlanner])).trans ?_
    norm_num [swrRate, initialGap, mkPlanner]
  · refine ((c5_classifier (mkPlanner ⟨2400, 0, 0, 13, 0, 1, 0, 0, 0⟩)
      (by norm_num [mkPlanner])).2.2.2.2.2 (by norm_num [initialGap, mkPlanner])
      (by norm_num [mkPlanner])
      (by norm_num [swrRate, initialGap, mkPlanner])).trans ?_
    norm_num [swrRate, initialGap, mkPlanner]

/-! ### Claim C10 -/

/-- C10: the classifier reads only target spend, fixed income, dividend
income, tax rate and starting capital: two input records that agree on these
five fields — whatever their horizon, inflation, dividend-growth and
expected-return fields — classify identically. -/
theorem c10_classifier_noninterference (i1 i2 : ScenarioInput)
    (h1 : i1.target_payout = i2.target_payout)
    (h2 : i1.other_income = i2.other_income)
    (h3 : i1.current_dividends = i2.current_dividends)
    (h4 : i1.tax_rate = i2.tax_rate)
    (h5 : i1.lump_sum = i2.lump_sum) :
    calculate_swr_health (mkPlanner i1) = calculate_swr_health (mkPlanner i2) := by
  simp only [calculate_swr_health, mkPlanner]
  rw [h1, h2, h3, h4, h5]

/-- C10 (witness): two records differing in horizon, inflation, dividend
growth and expected return classify identically. -/
theorem c10_witness :
    calculate_swr_health (mkPlanner ⟨1000, 1, 2, 50, 1/10, 10, 1/100, 2/100, 7/100⟩)
      = calculate_swr_health (mkPlanner ⟨1000, 1, 2, 50, 1/10, 30, 5/100, 0, -1/2⟩) :=
  c10_classifier_noninterference
    ⟨1000, 1, 2, 50, 1/10, 10, 1/100, 2/100, 7/100⟩
    ⟨1000, 1, 2, 50, 1/10, 30, 5/100, 0, -1/2⟩ rfl rfl rfl rfl rfl

/-! ### Claim C6 -/

/-- C6 (code evaluated at the failing input): with tax rate 2 (200 percent)
no component raises any validation error.  The classifier completes and
returns the sign-inverted rate -9.6 percent, which the threshold chain files
under EXCELLENT despite a positive income gap; the simulator completes
normally (withdrawals turn into deposits, the run is reported solvent).
The claim's fail-fast validation does not exist in the code. -/
theorem c6_no_validation :
    calculate_swr_health (mkPlanner ⟨500000, 0, 0, 4000, 2, 1, 0, 0, 0⟩)
      = some (-12 / 125, .excellent)
    ∧ (calculate_viability (mkPlanner ⟨500000, 0, 0, 4000, 2, 1, 0, 0, 0⟩) 0 0).map
        (fun res => res.2.1) = some true
    ∧ (0 : ℚ) < initialGap (mkPlanner ⟨500000, 0, 0, 4000, 2, 1, 0, 0, 0⟩) := by
  refine ⟨?_, ?_, ?_⟩
  · norm_num [calculate_swr_health, mkPlanner]
  · rw [cv_solv (mkPlanner ⟨500000, 0, 0, 4000, 2, 1, 0, 0, 0⟩) 0 0 (by norm_num [mkPlanner])]
    have hm : monthsList (mkPlanner (⟨500000, 0, 0, 4000, 2, 1, 0, 0, 0⟩ : ScenarioInput)).horizon_months
        = [1, 2, 3, 4, 5, 6, 7, 8, 9, 10, 11, 12] := rfl
    rw [runP, hm]
    simp only [List.foldl]
    norm_num [stepP, initState, mkPlanner, divAfter, expAfter, grossWithdrawal,
      monthlyRate, yearOf, max_def]
  · norm_num [initialGap, mkPlanner]

/-! ### Claim C3 -/

/-- The golden-fixture scenario: capital 500000, fixed income 1500/mo,
dividends 500/mo, target spend 4000/mo, tax 15 percent, horizon 25 years,
inflation 2.5 percent, dividend growth 3 percent, expected return
7 percent. -/
def c3Planner : RetirementPlanner :=
  mkPlanner ⟨500000, 1500, 500, 4000, 3 / 20, 25, 1 / 40, 3 / 100, 7 / 100⟩

/-- During the first year no escalation fires, so every month's gross
withdrawal is `max 0 (4000 - 2000) / (1 - 0.15) = 40000 / 17`. -/
lemma c3_year1 : ∀ m : ℕ, m ≤ 12 →
    (runP c3Planner 0 0 m).current_div = 500
    ∧ (runP c3Planner 0 0 m).current_expense = 4000
    ∧ (1 ≤ m → (runP c3Planner 0 0 m).lastW = 40000 / 17) := by
  intro m
  induction m with
  | zero =>
      intro _
      exact ⟨rfl, rfl, fun h => absurd h (by norm_num)⟩
  | succ m ih =>
      intro hm
      obtain ⟨hd, he, _⟩ := ih (by omega)
      have hesc : ¬ (1 < m + 1 ∧ (m + 1 - 1) % 12 = 0) := by omega
      rw [runP_succ, stepP_current_div, stepP_current_expense, stepP_lastW]
      simp only [divAfter, expAfter, if_neg hesc]
      rw [hd, he]
      refine ⟨rfl, rfl, fun _ => ?_⟩
      norm_num [grossWithdrawal, c3Planner, mkPlanner, max_def]

/-- C3: the golden fixture produces exactly 25 trajectory rows, with year
indices exactly 1..25 (strictly increasing), first sampled withdrawal
`40000 / 17 = 2352.94...`, and the same gross withdrawal in every month of
the first year. -/
theorem c3_golden_run :
    ((calculate_viability c3Planner 0 0).map fun res =>
        (res.1.length, res.1.map TrajectoryPoint.year,
          res.1.head?.map TrajectoryPoint.withdrawal))
      = some (25, List.range' 1 25, some (40000 / 17))
    ∧ (∀ res, calculate_viability c3Planner 0 0 = some res →
        List.Chain' (· < ·) (res.1.map TrajectoryPoint.year))
    ∧ (∀ m, 1 ≤ m → m ≤ 12 → (runP c3Planner 0 0 m).lastW = 40000 / 17) := by
  have hτ : c3Planner.inputs.tax_rate ≠ 1 := by norm_num [c3Planner, mkPlanner]
  have hcv : calculate_viability c3Planner 0 0
      = some ((runP c3Planner 0 0 300).data, (runP c3Planner 0 0 300).solv,
          (runP c3Planner 0 0 300).msg) := by
    unfold calculate_viability
    rw [show c3Planner.horizon_months = 300 from rfl, runO_eq_runP _ _ _ hτ]
    rfl
  have hfil : (monthsList 300).filter
      (fun m => decide (m % 12 = 0 ∨ m = c3Planner.horizon_months))
      = [12, 24, 36, 48, 60, 72, 84, 96, 108, 120, 132, 144, 156, 168, 180,
          192, 204, 216, 228, 240, 252, 264, 276, 288, 300] := by decide
  have hdata : (runP c3Planner 0 0 300).data
      = List.map (fun m => (⟨yearOf m, (runP c3Planner 0 0 m).current_expense,
          (runP c3Planner 0 0 m).lastW, (runP c3Planner 0 0 m).bal⟩ : TrajectoryPoint))
        [12, 24, 36, 48, 60, 72, 84, 96, 108, 120, 132, 144, 156, 168, 180,
          192, 204, 216, 228, 240, 252, 264, 276, 288, 300] := by
    rw [runP_data, hfil]
  have hlen : ((runP c3Planner 0 0 300).data).length = 25 := by
    rw [hdata, List.length_map]
    rfl
  have hyears : ((runP c3Planner 0 0 300).data).map TrajectoryPoint.year
      = List.range' 1 25 := by
    rw [hdata, List.map_map]
    rfl
  have hw12 : (runP c3Planner 0 0 12).lastW = 40000 / 17 :=
    (c3_year1 12 (by norm_num)).2.2 (by norm_num)
  have hhead : ((runP c3Planner 0 0 300).data).head?.map TrajectoryPoint.withdrawal
      = some (40000 / 17) := by
    rw [hdata]
    show some ((runP c3Planner 0 0 12).lastW) = some (40000 / 17)
    exact congrArg some hw12
  refine ⟨?_, ?_, ?_⟩
  · rw [hcv, Option.map_some']
    show some (((runP c3Planner 0 0 300).data).length,
        ((runP c3Planner 0 0 300).data).map TrajectoryPoint.year,
        ((runP c3Planner 0 0 300).data).head?.map TrajectoryPoint.withdrawal)
      = some (25, List.range' 1 25, some (40000 / 17))
    rw [hlen, hyears, hhead]
  · intro res hres
    rw [hcv] at hres
    have hr1 : res.1 = (runP c3Planner 0 0 300).data :=
      (congrArg Prod.fst (Option.some_inj.mp hres)).symm
    rw [hr1, hyears]
    rw [show List.range' 1 25
      = [1, 2, 3, 4, 5, 6, 7, 8, 9, 10, 11, 12, 13, 14, 15, 16, 17, 18, 19,
          20, 21, 22, 23, 24, 25] from rfl]
    norm_num [List.chain'_cons]
  · intro m h1 h2
    exact (c3_year1 m h2).2.2 h1

/-- C3 (witness): the first-year withdrawal fact applied at month 12. -/
theorem c3_witness : (runP c3Planner 0 0 12).lastW = 40000 / 17 :=
  c3_golden_run.2.2 12 (by norm_num) (by norm_num)

/-! ### Claim C7 -/

/-- A successful `calculate_viability` with at least one simulated month
implies the tax rate was not 1 (otherwise the first month raises). -/
lemma cv_tax_ne_one (p : RetirementPlanner) (cr : ℚ) (cy : ℕ)
    (r : List TrajectoryPoint × Bool × SolvencyMsg) (hN : 1 ≤ p.horizon_months)
    (h : calculate_viability p cr cy = some r) : p.inputs.tax_rate ≠ 1 := by
  intro htax
  have hzero : (1 : ℚ) - p.inputs.tax_rate = 0 := by rw [htax]; ring
  obtain ⟨k, hk⟩ : ∃ k, p.horizon_months = k + 1 := ⟨p.horizon_months - 1, by omega⟩
  have hnone : runO p cr cy (k + 1) = none := by
    rw [runO_succ]
    cases runO p cr cy k <;> simp [stepO, hzero]
  unfold calculate_viability at h
  rw [hk, hnone] at h
  cases h

/-- With no income and no target spend, every withdrawal is 0 and the
balance stays a positive product of growth factors: the run is solvent for
any rates above -1200 percent. -/
lemma run_zero_spend (p : RetirementPlanner) (cr : ℚ) (cy : ℕ)
    (h1 : p.inputs.other_income = 0) (h2 : p.inputs.current_dividends = 0)
    (h3 : p.inputs.target_payout = 0) (hcap : 0 < p.lump_sum)
    (hr1 : -12 < p.inputs.expected_return) (hr2 : -12 < cr) :
    ∀ n, 0 < (runP p cr cy n).bal ∧ (runP p cr cy n).current_div = 0
      ∧ (runP p cr cy n).current_expense = 0 ∧ (runP p cr cy n).solv = true := by
  intro n
  induction n with
  | zero => exact ⟨hcap, h2, h3, rfl⟩
  | succ n ih =>
      obtain ⟨hb, hd, he, hs⟩ := ih
      have hda : divAfter p (n + 1) ((runP p cr cy n).current_div) = 0 := by
        rw [hd]
        unfold divAfter
        split <;> ring
      have hea : expAfter p (n + 1) ((runP p cr cy n).current_expense) = 0 := by
        rw [he]
        unfold expAfter
        split <;> ring
      have hga : grossWithdrawal p 0 0 = 0 := by
        unfold grossWithdrawal
        simp [h1]
      have hrpos : 0 < 1 + monthlyRate p cr cy (n + 1) := by
        unfold monthlyRate
        split <;> linarith
      have hba : 0 < balAfter p cr cy (n + 1) (runP p cr cy n) := by
        unfold balAfter
        rw [hda, hea, hga]
        have := mul_pos hb hrpos
        nlinarith [this]
      have hcond : ¬ (balAfter p cr cy (n + 1) (runP p cr cy n) ≤ 0
          ∧ (runP p cr cy n).solv = true) := fun hx => absurd hx.1 (not_le.mpr hba)
      rw [runP_succ, stepP_bal, stepP_current_div, stepP_current_expense, stepP_solv]
      rw [if_neg hcond, if_neg hcond, hda, hea]
      exact ⟨hba, rfl, rfl, hs⟩

/-- The second trajectory row of a run of at least 24 months is the sample
of month 24, carrying year index 2. -/
lemma traj_get1 (p : RetirementPlanner) (cr : ℚ) (cy : ℕ) (hN : 24 ≤ p.horizon_months) :
    ((runP p cr cy p.horizon_months).data).get? 1
      = some ⟨2, (runP p cr cy 24).current_expense, (runP p cr cy 24).lastW,
          (runP p cr cy 24).bal⟩ := by
  rw [runP_data]
  have h24' : p.horizon_months - 24 + 24 = p.horizon_months := by omega
  have hsplit : monthsList p.horizon_months
      = monthsList 24 ++ List.range' (1 + 1 * 24) (p.horizon_months - 24) := by
    unfold monthsList
    calc List.range' 1 p.horizon_months
        = List.range' 1 (p.horizon_months - 24 + 24) := by rw [h24']
      _ = List.range' 1 24 ++ List.range' (1 + 1 * 24) (p.horizon_months - 24) :=
          (List.range'_append 1 24 (p.horizon_months - 24) 1).symm
  rw [hsplit, List.filter_append, List.map_append]
  have hpt : ∀ m ∈ monthsList 24,
      (decide (m % 12 = 0 ∨ m = p.horizon_months)) = (decide (m % 12 = 0)) := by
    intro m hm
    have hml : 1 ≤ m ∧ m < 1 + 24 := List.mem_range'_1.mp hm
    by_cases h12 : m % 12 = 0
    · simp [h12]
    · have hmn : m ≠ p.horizon_months := by omega
      simp [h12, hmn]
  have hfilhead : (monthsList 24).filter
      (fun m => decide (m % 12 = 0 ∨ m = p.horizon_months)) = [12, 24] := by
    rw [List.filter_congr hpt]
    decide
  rw [hfilhead]
  rw [List.get?_append (by simp)]
  rfl

/-- Congruence of a simulation month in the growth rate: two crash
configurations with the same monthly rate step identically. -/
lemma stepP_rate_congr (p : RetirementPlanner) (cr1 cr2 : ℚ) (cy1 cy2 : ℕ) (m : ℕ)
    (h : monthlyRate p cr1 cy1 m = monthlyRate p cr2 cy2 m) (st : SimState) :
    stepP p cr1 cy1 m st = stepP p cr2 cy2 m st := by
  unfold stepP
  rw [h]

/-- One-month strict comparison between the -20 percent shocked run and the
no-shock run, as long as the shocked run has not depleted. -/
lemma c7_step (p : RetirementPlanner) (hret : -1/5 < p.inputs.expected_return) (n : ℕ)
    (hn : n + 1 ≤ 24)
    (hd : (runP p (-1/5) 2 n).current_div = (runP p 0 0 n).current_div)
    (he : (runP p (-1/5) 2 n).current_expense = (runP p 0 0 n).current_expense)
    (hbb : 0 < (runP p 0 0 n).bal)
    (hble : (runP p (-1/5) 2 n).bal ≤ (runP p 0 0 n).bal)
    (hsb : (runP p 0 0 n).solv = true)
    (hsolv : (runP p (-1/5) 2 (n + 1)).solv = true) :
    (runP p (-1/5) 2 (n + 1)).current_div = (runP p 0 0 (n + 1)).current_div
    ∧ (runP p (-1/5) 2 (n + 1)).current_expense = (runP p 0 0 (n + 1)).current_expense
    ∧ 0 < (runP p (-1/5) 2 (n + 1)).bal
    ∧ (runP p (-1/5) 2 (n + 1)).bal < (runP p 0 0 (n + 1)).bal
    ∧ (runP p 0 0 (n + 1)).solv = true := by
  have hss : (runP p (-1/5) 2 n).solv = true := by
    cases hval : (runP p (-1/5) 2 n).solv with
    | true => rfl
    | false =>
        have hps := (solv_persist p (-1/5) 2 n hval (n + 1) (by omega)).1
        rw [hps] at hsolv
        exact absurd hsolv (by decide)
  have hrs : monthlyRate p (-1/5) 2 (n + 1) = (-1/5) / 12 := by
    unfold monthlyRate
    rw [if_pos (by unfold yearOf; omega)]
  have hrb : monthlyRate p 0 0 (n + 1) = p.inputs.expected_return / 12 := by
    unfold monthlyRate
    rw [if_neg (by unfold yearOf; omega)]
  have hw : grossWithdrawal p (expAfter p (n + 1) ((runP p (-1/5) 2 n).current_expense))
        (divAfter p (n + 1) ((runP p (-1/5) 2 n).current_div))
      = grossWithdrawal p (expAfter p (n + 1) ((runP p 0 0 n).current_expense))
        (divAfter p (n + 1) ((runP p 0 0 n).current_div)) := by
    rw [hd, he]
  have hnoclamp : ¬ (balAfter p (-1/5) 2 (n + 1) (runP p (-1/5) 2 n) ≤ 0
      ∧ (runP p (-1/5) 2 n).solv = true) := by
    intro hx
    rw [runP_succ, stepP_solv, if_pos hx] at hsolv
    exact absurd hsolv (by decide)
  have hspos : 0 < balAfter p (-1/5) 2 (n + 1) (runP p (-1/5) 2 n) := by
    rcases not_and_or.mp hnoclamp with hb' | hs'
    · exact lt_of_not_le hb'
    · exact absurd hss hs'
  have hcomp : balAfter p (-1/5) 2 (n + 1) (runP p (-1/5) 2 n)
      < balAfter p 0 0 (n + 1) (runP p 0 0 n) := by
    unfold balAfter
    rw [hrs, hrb, hw]
    have hmul1 : (runP p (-1/5) 2 n).bal * (1 + (-1/5) / 12)
        ≤ (runP p 0 0 n).bal * (1 + (-1/5) / 12) :=
      mul_le_mul_of_nonneg_right hble (by norm_num)
    have hmul2 : (runP p 0 0 n).bal * (1 + (-1/5) / 12)
        < (runP p 0 0 n).bal * (1 + p.inputs.expected_return / 12) := by
      apply mul_lt_mul_of_pos_left _ hbb
      linarith
    nlinarith [hmul1, hmul2]
  have hbpos : 0 < balAfter p 0 0 (n + 1) (runP p 0 0 n) := lt_trans hspos hcomp
  have hnoclampb : ¬ (balAfter p 0 0 (n + 1) (runP p 0 0 n) ≤ 0
      ∧ (runP p 0 0 n).solv = true) := fun hx => absurd hx.1 (not_le.mpr hbpos)
  refine ⟨?_, ?_, ?_, ?_, ?_⟩
  · rw [runP_succ, runP_succ, stepP_current_div, stepP_current_div, hd]
  · rw [runP_succ, runP_succ, stepP_current_expense, stepP_current_expense, he]
  · rw [runP_succ, stepP_bal, if_neg hnoclamp]
    exact hspos
  · rw [runP_succ, runP_succ, stepP_bal, stepP_bal, if_neg hnoclamp, if_neg hnoclampb]
    exact hcomp
  · rw [runP_succ, stepP_solv, if_neg hnoclampb]
    exact hsb

/-- Strict comparison after any month 1..24: the shocked balance is strictly
below the baseline balance while the shocked run stays solvent. -/
lemma c7_aux (p : RetirementPlanner) (hcap : 0 < p.lump_sum)
    (hret : -1/5 < p.inputs.expected_return) :
    ∀ m : ℕ, 1 ≤ m → m ≤ 24 → (runP p (-1/5) 2 m).solv = true →
      (runP p (-1/5) 2 m).current_div = (runP p 0 0 m).current_div
      ∧ (runP p (-1/5) 2 m).current_expense = (runP p 0 0 m).current_expense
      ∧ 0 < (runP p (-1/5) 2 m).bal
      ∧ (runP p (-1/5) 2 m).bal < (runP p 0 0 m).bal
      ∧ (runP p 0 0 m).solv = true := by
  intro m h1
  induction m, h1 using Nat.le_induction with
  | base =>
      intro h24 hsolv
      exact c7_step p hret 0 (by omega) rfl rfl hcap (le_refl _) rfl hsolv
  | succ n hn ih =>
      intro h24 hsolv
      have hsn : (runP p (-1/5) 2 n).solv = true := by
        cases hval : (runP p (-1/5) 2 n).solv with
        | true => rfl
        | false =>
            have hps := (solv_persist p (-1/5) 2 n hval (n + 1) (by omega)).1
            rw [hps] at hsolv
            exact absurd hsolv (by decide)
      obtain ⟨hd, he, hsp, hlt, hsb⟩ := ih (by omega) hsn
      exact c7_step p hret n h24 hd he (lt_trans hsp hlt) (le_of_lt hlt) hsb hsolv

/-- C7 (amended): with the shock fixed at -20 percent for 2 years, the
year-2 sampled balance of the shocked run is strictly below the baseline's —
provided the baseline expected return exceeds -20 percent and the shocked
run is still solvent at month 24 (when the two runs cannot simply coincide
or both sit on equal post-depletion balances; see `c7_cex` for the failure
of the unamended claim). -/
theorem c7_shock_strict (p : RetirementPlanner)
    (hcap : 0 < p.lump_sum) (hret : -1/5 < p.inputs.expected_return)
    (hN : 24 ≤ p.horizon_months)
    (hsolv : (runP p (-1/5) 2 24).solv = true)
    (rs rb : List TrajectoryPoint × Bool × SolvencyMsg)
    (hs : calculate_viability p (-1/5) 2 = some rs)
    (hb : calculate_viability p 0 0 = some rb) :
    (rs.1.get? 1).map TrajectoryPoint.balance = some ((runP p (-1/5) 2 24).bal)
    ∧ (rb.1.get? 1).map TrajectoryPoint.balance = some ((runP p 0 0 24).bal)
    ∧ (runP p (-1/5) 2 24).bal < (runP p 0 0 24).bal := by
  have hτ : p.inputs.tax_rate ≠ 1 := cv_tax_ne_one p (-1/5) 2 rs (by omega) hs
  have hcvs : calculate_viability p (-1/5) 2
      = some ((runP p (-1/5) 2 p.horizon_months).data, (runP p (-1/5) 2 p.horizon_months).solv,
          (runP p (-1/5) 2 p.horizon_months).msg) := by
    unfold calculate_viability
    rw [runO_eq_runP p (-1/5) 2 hτ]
    rfl
  have hcvb : calculate_viability p 0 0
      = some ((runP p 0 0 p.horizon_months).data, (runP p 0 0 p.horizon_months).solv,
          (runP p 0 0 p.horizon_months).msg) := by
    unfold calculate_viability
    rw [runO_eq_runP p 0 0 hτ]
    rfl
  have hrs1 : rs.1 = (runP p (-1/5) 2 p.horizon_months).data := by
    rw [hs] at hcvs
    exact (congrArg Prod.fst (Option.some_inj.mp hcvs.symm)).symm
  have hrb1 : rb.1 = (runP p 0 0 p.horizon_months).data := by
    rw [hb] at hcvb
    exact (congrArg Prod.fst (Option.some_inj.mp hcvb.symm)).symm
  obtain ⟨_, _, _, hlt, _⟩ := c7_aux p hcap hret 24 (by norm_num) (by norm_num) hsolv
  refine ⟨?_, ?_, hlt⟩
  · rw [hrs1, traj_get1 p (-1/5) 2 hN]
    rfl
  · rw [hrb1, traj_get1 p 0 0 hN]
    rfl

/-- Scenario for the C7 counterexample: expected return exactly -20 percent,
no spend, horizon 2 years — the shocked months carry the same rate as the
baseline. -/
def c7cPlanner : RetirementPlanner := mkPlanner ⟨1, 0, 0, 0, 0, 2, 0, 0, -1/5⟩

/-- When the baseline expected return equals the shock rate, the two runs
coincide month by month through the 2-year horizon. -/
lemma c7c_runs_eq : ∀ n, n ≤ 24 → runP c7cPlanner (-1/5) 2 n = runP c7cPlanner 0 0 n := by
  intro n
  induction n with
  | zero => intro _; rfl
  | succ n ih =>
      intro hn
      rw [runP_succ, runP_succ, ih (by omega)]
      apply stepP_rate_congr
      unfold monthlyRate
      rw [if_pos (by unfold yearOf; omega), if_neg (by unfold yearOf; omega)]
      norm_num [c7cPlanner, mkPlanner]

/-- C7 (counterexample): for the scenario of `c7cPlanner` the -20 percent /
2-year stress run equals the baseline run outright, so its year-2 sampled
balance is not strictly below the baseline's: the claim fails for inputs
whose expected return is itself -20 percent. -/
theorem c7_cex :
    calculate_viability c7cPlanner (-1/5) 2 = calculate_viability c7cPlanner 0 0
    ∧ ((calculate_viability c7cPlanner 0 0).map fun res =>
        (res.1.get? 1).map TrajectoryPoint.year) = some (some 2) := by
  have hτ : c7cPlanner.inputs.tax_rate ≠ 1 := by norm_num [c7cPlanner, mkPlanner]
  have hcvb : calculate_viability c7cPlanner 0 0
      = some ((runP c7cPlanner 0 0 c7cPlanner.horizon_months).data,
          (runP c7cPlanner 0 0 c7cPlanner.horizon_months).solv,
          (runP c7cPlanner 0 0 c7cPlanner.horizon_months).msg) := by
    unfold calculate_viability
    rw [runO_eq_runP c7cPlanner 0 0 hτ]
    rfl
  constructor
  · have hcvs : calculate_viability c7cPlanner (-1/5) 2
        = some ((runP c7cPlanner (-1/5) 2 c7cPlanner.horizon_months).data,
            (runP c7cPlanner (-1/5) 2 c7cPlanner.horizon_months).solv,
            (runP c7cPlanner (-1/5) 2 c7cPlanner.horizon_months).msg) := by
      unfold calculate_viability
      rw [runO_eq_runP c7cPlanner (-1/5) 2 hτ]
      rfl
    rw [hcvs, hcvb, c7c_runs_eq c7cPlanner.horizon_months (by norm_num [c7cPlanner, mkPlanner])]
  · rw [hcvb, Option.map_some']
    simp only []
    rw [traj_get1 c7cPlanner 0 0 (by norm_num [c7cPlanner, mkPlanner])]
    rfl

/-- Scenario for the C7 witness: no spend, zero expected return, capital 1,
horizon 2 years. -/
def c7wPlanner : RetirementPlanner := mkPlanner ⟨1, 0, 0, 0, 0, 2, 0, 0, 0⟩

/-- C7 (witness): for the concrete scenario the shocked year-2 balance is
strictly below the baseline's. -/
theorem c7_witness :
    (runP c7wPlanner (-1/5) 2 24).bal < (runP c7wPlanner 0 0 24).bal := by
  have hτ : c7wPlanner.inputs.tax_rate ≠ 1 := by norm_num [c7wPlanner, mkPlanner]
  have hcvs : calculate_viability c7wPlanner (-1/5) 2
      = some ((runP c7wPlanner (-1/5) 2 c7wPlanner.horizon_months).data,
          (runP c7wPlanner (-1/5) 2 c7wPlanner.horizon_months).solv,
          (runP c7wPlanner (-1/5) 2 c7wPlanner.horizon_months).msg) := by
    unfold calculate_viability
    rw [runO_eq_runP c7wPlanner (-1/5) 2 hτ]
    rfl
  have hcvb : calculate_viability c7wPlanner 0 0
      = some ((runP c7wPlanner 0 0 c7wPlanner.horizon_months).data,
          (runP c7wPlanner 0 0 c7wPlanner.horizon_months).solv,
          (runP c7wPlanner 0 0 c7wPlanner.horizon_months).msg) := by
    unfold calculate_viability
    rw [runO_eq_runP c7wPlanner 0 0 hτ]
    rfl
  have hsolv : (runP c7wPlanner (-1/5) 2 24).solv = true :=
    (run_zero_spend c7wPlanner (-1/5) 2 rfl rfl rfl
      (by norm_num [c7wPlanner, mkPlanner]) (by norm_num [c7wPlanner, mkPlanner])
      (by norm_num) 24).2.2.2
  exact (c7_shock_strict c7wPlanner (by norm_num [c7wPlanner, mkPlanner])
    (by norm_num [c7wPlanner, mkPlanner]) (by norm_num [c7wPlanner, mkPlanner])
    hsolv _ _ hcvs hcvb).2.2
